import Mathlib

/-!
ofxEos / example_eos_fit_model : the application class `ofApp`

The source under study is the header `src/example_eos_fit_model/src/ofApp.h`:

    class ofApp: public ofBaseApp
    {
    public:
        void setup() override;
        void draw() override;

        ofEasyCam cam;
        ofTexture imageWithMesh;
        ofTexture image;
        ofxAssimpModelLoader generatedModel;
    };

The development has two layers.

* The class declaration itself, as data (`ofAppDecl`), for the properties that
  speak about what the class declares.
* The instance state as a structure (`ofApp`) with the four members, together
  with the bodies of `setup` and `draw` and the host run loop.  The bodies and
  the run loop are not in the header; they are modelled from the specification
  and every such definition says so.
-/

namespace OfxEos

/-! ## The class declaration as data -/

/-- Access level of a member or of a base class. -/
inductive Access where
  | pub
  | prot
  | priv
  deriving DecidableEq, Repr

/-- How a data member is declared: as an object of its type, or as a pointer
or a reference to an object. -/
inductive Storage where
  | value
  | pointer
  | reference
  deriving DecidableEq, Repr

/-- A member function declaration. -/
structure MethodDecl where
  access : Access
  ret : String
  name : String
  params : List String
  virtualKw : Bool
  overrideKw : Bool
  deriving DecidableEq, Repr

/-- A data member declaration. -/
structure FieldDecl where
  access : Access
  isStatic : Bool
  typeName : String
  storage : Storage
  name : String
  deriving DecidableEq, Repr

/-- A base class specifier. -/
structure BaseSpec where
  access : Access
  name : String
  deriving DecidableEq, Repr

/-- A class declaration: its name, bases, member functions and data members,
in source order. -/
structure ClassDecl where
  name : String
  bases : List BaseSpec
  methods : List MethodDecl
  fields : List FieldDecl
  deriving DecidableEq, Repr

/-- The declaration `class ofApp: public ofBaseApp` of `ofApp.h`, lines 17-29.
Everything follows the single `public:` label. -/
def ofAppDecl : ClassDecl where
  name := "ofApp"
  bases := [⟨Access.pub, "ofBaseApp"⟩]
  methods :=
    [ ⟨Access.pub, "void", "setup", [], false, true⟩,
      ⟨Access.pub, "void", "draw", [], false, true⟩ ]
  fields :=
    [ ⟨Access.pub, false, "ofEasyCam", Storage.value, "cam"⟩,
      ⟨Access.pub, false, "ofTexture", Storage.value, "imageWithMesh"⟩,
      ⟨Access.pub, false, "ofTexture", Storage.value, "image"⟩,
      ⟨Access.pub, false, "ofxAssimpModelLoader", Storage.value, "generatedModel"⟩ ]

/-- The member functions of a class that are publicly accessible. -/
def ClassDecl.publicMethods (c : ClassDecl) : List MethodDecl :=
  c.methods.filter (fun m => decide (m.access = Access.pub))

/-- A base member function that `m` can override: virtual, with the same name,
the same parameter list and the same return type. -/
def MethodDecl.overrides (m b : MethodDecl) : Bool :=
  b.virtualKw && decide (b.name = m.name) && decide (b.params = m.params) &&
    decide (b.ret = m.ret)

/-- The rule of the language for the `override` specifier: a member function
carrying it must override a virtual member function of a base class, otherwise
the program is rejected.  `base` is the declaration of the (single) base
class, which lives in the host framework. -/
def ClassDecl.overridesCheck (c base : ClassDecl) : Bool :=
  c.bases.all (fun b => decide (b.name = base.name)) &&
    c.methods.all (fun m => !m.overrideKw || base.methods.any (fun b => m.overrides b))

/-- Where the object denoted by a data member lives. -/
inductive Place where
  | subobject (inst : Nat) (field : String)
  | classWide (field : String)
  | external
  deriving DecidableEq, Repr

/-- The place of the object a data member of instance number `inst` denotes:
a static member is one object for the whole class, a member declared as an
object is a subobject of that very instance, a pointer or reference member
denotes an object stored outside the instance. -/
def FieldDecl.place (d : FieldDecl) (inst : Nat) : Place :=
  if d.isStatic then Place.classWide d.name
  else
    match d.storage with
    | Storage.value => Place.subobject inst d.name
    | Storage.pointer => Place.external
    | Storage.reference => Place.external

/-! ## The instance state -/

/-- Modelled from the spec: the type `ofEasyCam` belongs to the host framework
and is not under `src/`.  The spec describes it as "an interactive viewpoint
controller" that `setup` is "expected to initialize"; it is modelled as either
not yet initialized or initialized with a view transform (an abstract
handle). -/
inductive ofEasyCam where
  | uninitialized
  | initialized (view : Nat)
  deriving DecidableEq, Repr

/-- Modelled from the spec: the type `ofTexture` belongs to the host framework
and is not under `src/`.  The spec describes textures as "GPU-resident image
buffers", "recreated or left uninitialized"; a texture is modelled as either
not yet initialized or initialized with an image buffer (an abstract
handle). -/
inductive ofTexture where
  | uninitialized
  | initialized (buffer : Nat)
  deriving DecidableEq, Repr

/-- Modelled from the spec: the type `ofxAssimpModelLoader` belongs to the
model-loading addon and is not under `src/`.  The spec describes it as "a
loaded 3D mesh/model instance populated by an external model-loading addon",
"created" in `setup`; it is modelled as either not yet initialized or
initialized with a loaded mesh (an abstract handle). -/
inductive ofxAssimpModelLoader where
  | uninitialized
  | initialized (mesh : Nat)
  deriving DecidableEq, Repr

/-- The state of an instance of `class ofApp` (`ofApp.h`, lines 24-27): the
four data members, each held by value. -/
structure ofApp where
  cam : ofEasyCam
  imageWithMesh : ofTexture
  image : ofTexture
  generatedModel : ofxAssimpModelLoader
  deriving DecidableEq, Repr

/-- The components of an instance, in declaration order. -/
def ofApp.components (self : ofApp) :
    ofEasyCam × ofTexture × ofTexture × ofxAssimpModelLoader :=
  (self.cam, self.imageWithMesh, self.image, self.generatedModel)

/-- The instance right after construction: the class declares no constructor,
so every member is default-constructed and nothing has been initialized. -/
def ofApp.construct : ofApp :=
  ⟨ofEasyCam.uninitialized, ofTexture.uninitialized, ofTexture.uninitialized,
    ofxAssimpModelLoader.uninitialized⟩

/-- What `setup` obtains from outside the program: the initial view of the
camera, and the outcome of producing each of the two images and of loading the
mesh.  An outcome is `none` when the asset is missing, the fit or the load
fails, or the setup logic does not create the component (spec 3: textures are
"recreated or left uninitialized depending on setup logic not shown"; spec 7:
"missing assets, fitting failures, load failures"). -/
structure Assets where
  view : Nat
  imageWithMesh : Option Nat
  image : Option Nat
  mesh : Option Nat
  deriving DecidableEq, Repr

/-- One write to the framebuffer. -/
inductive DrawCmd where
  | texture (t : ofTexture)
  | model (cam : ofEasyCam) (m : ofxAssimpModelLoader)
  deriving DecidableEq, Repr

/-- The instance together with the framebuffer it draws into. -/
structure World where
  app : ofApp
  framebuffer : List DrawCmd
  deriving DecidableEq, Repr

/-- Modelled from the spec: what `setup` does to one texture.  Spec 3:
textures are "recreated or left uninitialized depending on setup logic not
shown": with an image at hand the texture is recreated from it, otherwise it
is left as it was. -/
def ofTexture.setup (t : ofTexture) : Option Nat → ofTexture
  | some buffer => ofTexture.initialized buffer
  | none => t

/-- Modelled from the spec: what `setup` does to the model.  Spec 3: the model
is "populated by an external model-loading addon", "created" in `setup`; spec
7 names "load failures": a loaded mesh populates the model, otherwise the
model is left as it was. -/
def ofxAssimpModelLoader.setup (m : ofxAssimpModelLoader) : Option Nat → ofxAssimpModelLoader
  | some mesh => ofxAssimpModelLoader.initialized mesh
  | none => m

/-- Modelled from the spec: the body of `ofApp::setup` (declared at `ofApp.h`
line 20, defined in `ofApp.cpp`, which is not under `src/`).  Spec 4.1:
"expected to initialize camera, textures, and model (implementation not
shown).  No documented failure mode in this fragment": the method returns
nothing and reports no failure; the camera is initialized, and each texture
and the model is initialized when its asset is there and left as it was
otherwise (spec 3 and 7). -/
def ofApp.setup (env : Assets) (self : ofApp) : ofApp :=
  ⟨ofEasyCam.initialized env.view, self.imageWithMesh.setup env.imageWithMesh,
    self.image.setup env.image, self.generatedModel.setup env.mesh⟩

/-- Modelled from the spec: the body of `ofApp::draw` (declared at `ofApp.h`
line 21, defined in `ofApp.cpp`, which is not under `src/`).  Spec 4.1:
"expected to render textures and the 3D model using the camera's current view
transform.  No return value; side effects are purely visual (framebuffer
writes)."  The result is the unit value paired with the world after the
call. -/
def ofApp.draw (w : World) : Unit × World :=
  ((), ⟨w.app, w.framebuffer ++
    [DrawCmd.texture w.app.image, DrawCmd.texture w.app.imageWithMesh,
      DrawCmd.model w.app.cam w.app.generatedModel]⟩)

/-- A call the host makes into the application. -/
inductive Call where
  | setup
  | draw
  deriving DecidableEq, Repr

/-- The host together with the application it drives: whether the host has
already called `setup`, and the world. -/
structure Host where
  started : Bool
  world : World
  deriving DecidableEq, Repr

/-- The host before its first step, driving the world `w`. -/
def Host.start (w : World) : Host := ⟨false, w⟩

/-- Modelled from the spec: one step of the run loop of the host framework,
which is not under `src/`.  Spec 5: "`setup()` runs once, `draw()` runs
repeatedly"; spec 4.1: `setup` is "called once before any frame is drawn",
`draw` is "called once per frame by the host's render loop".  The step
returns the call made and the host after it. -/
def Host.step (env : Assets) (h : Host) : Call × Host :=
  if h.started then
    (Call.draw, ⟨true, (ofApp.draw h.world).2⟩)
  else
    (Call.setup, ⟨true, ⟨h.world.app.setup env, h.world.framebuffer⟩⟩)

/-- The host after `n` steps. -/
def Host.after (env : Assets) (h : Host) : Nat → Host
  | 0 => h
  | n + 1 => (Host.step env (Host.after env h n)).2

/-- The call made at step `k` (counting from 0) of the execution from `h`. -/
def Host.callAt (env : Assets) (h : Host) (k : Nat) : Call :=
  (Host.step env (Host.after env h k)).1

/-- The calls of the first `n` steps of the execution from `h`, in order. -/
def Host.calls (env : Assets) (h : Host) (n : Nat) : List Call :=
  (List.range n).map (Host.callAt env h)

/-- The world after `n` calls of `draw` in a row. -/
def drawTimes (n : Nat) (w : World) : World :=
  (fun x => (ofApp.draw x).2)^[n] w

/-- A declaration of the host base type with the override points the host
calls, all virtual, taking no argument and returning nothing.  It instantiates
the base-class parameter of the override rule. -/
def hostBaseDecl : ClassDecl where
  name := "ofBaseApp"
  bases := []
  methods :=
    [ ⟨Access.pub, "void", "setup", [], true, false⟩,
      ⟨Access.pub, "void", "update", [], true, false⟩,
      ⟨Access.pub, "void", "draw", [], true, false⟩,
      ⟨Access.pub, "void", "exit", [], true, false⟩ ]
  fields := []

/-! ## Auxiliary lemmas -/

theorem step_started (env : Assets) (h : Host) : (Host.step env h).2.started = true := by
  unfold Host.step
  split <;> rfl

theorem after_succ_started (env : Assets) (h : Host) (n : Nat) :
    (Host.after env h (n + 1)).started = true :=
  step_started env (Host.after env h n)

theorem callAt_zero (env : Assets) (w : World) :
    Host.callAt env (Host.start w) 0 = Call.setup := by
  simp [Host.callAt, Host.after, Host.step, Host.start]

theorem callAt_succ (env : Assets) (h : Host) (k : Nat) :
    Host.callAt env h (k + 1) = Call.draw := by
  have hs := after_succ_started env h k
  simp [Host.callAt, Host.step, hs]

theorem callAt_draw_pos (env : Assets) (w : World) (k : Nat)
    (hk : Host.callAt env (Host.start w) k = Call.draw) : 0 < k := by
  cases k with
  | zero => rw [callAt_zero] at hk; cases hk
  | succ j => exact Nat.succ_pos j

theorem calls_succ (env : Assets) (w : World) (n : Nat) :
    Host.calls env (Host.start w) (n + 1) = Call.setup :: List.replicate n Call.draw := by
  unfold Host.calls
  rw [List.range_succ_eq_map, List.map_cons, callAt_zero, List.map_map]
  congr 1
  have hf : (Host.callAt env (Host.start w) ∘ Nat.succ) = fun _ => Call.draw := by
    funext k
    exact callAt_succ env (Host.start w) k
  rw [hf]
  simp

theorem draw_app (w : World) : (ofApp.draw w).2.app = w.app := rfl

theorem drawTimes_succ (n : Nat) (w : World) :
    drawTimes (n + 1) w = (ofApp.draw (drawTimes n w)).2 := by
  unfold drawTimes
  exact Function.iterate_succ_apply' _ n w

theorem drawTimes_app (n : Nat) (w : World) : (drawTimes n w).app = w.app := by
  induction n with
  | zero => rfl
  | succ m ih => rw [drawTimes_succ, draw_app, ih]

theorem after_one_world (env : Assets) (w : World) :
    (Host.after env (Host.start w) 1).world = ⟨w.app.setup env, w.framebuffer⟩ := by
  simp [Host.after, Host.step, Host.start]

theorem after_succ_succ_world (env : Assets) (h : Host) (k : Nat) :
    (Host.after env h (k + 2)).world = (ofApp.draw (Host.after env h (k + 1)).world).2 := by
  have hs := after_succ_started env h k
  show (Host.step env (Host.after env h (k + 1))).2.world = _
  simp [Host.step, hs]

theorem after_succ_world (env : Assets) (w : World) (k : Nat) :
    (Host.after env (Host.start w) (k + 1)).world =
      drawTimes k ⟨w.app.setup env, w.framebuffer⟩ := by
  induction k with
  | zero => exact after_one_world env w
  | succ m ih => rw [after_succ_succ_world, ih, drawTimes_succ]

theorem after_succ_app (env : Assets) (w : World) (k : Nat) :
    (Host.after env (Host.start w) (k + 1)).world.app = w.app.setup env := by
  rw [after_succ_world, drawTimes_app]

theorem place_of_field (d : FieldDecl) (hd : d ∈ ofAppDecl.fields) (i : Nat) :
    d.place i = Place.subobject i d.name := by
  simp only [ofAppDecl, List.mem_cons, List.mem_singleton, List.not_mem_nil, or_false] at hd
  rcases hd with h | h | h | h <;> subst h <;> rfl

/-! ## The claims -/

/-- C1: the member functions `ofApp` declares are exactly `setup` and `draw`,
in the public section; each takes no argument, returns `void` and carries the
`override` specifier; the only base is `ofBaseApp`, inherited publicly; and
against any declaration of the base class that the override rule accepts, each
of the two overrides a virtual member function of `ofBaseApp` of the same
name, with no parameter and return type `void`. -/
theorem ofApp_public_operations :
    ofAppDecl.name = "ofApp" ∧
    ofAppDecl.bases = [⟨Access.pub, "ofBaseApp"⟩] ∧
    ofAppDecl.methods.map (fun m => m.name) = ["setup", "draw"] ∧
    ofAppDecl.publicMethods = ofAppDecl.methods ∧
    (∀ m ∈ ofAppDecl.methods,
      m.access = Access.pub ∧ m.params = [] ∧ m.ret = "void" ∧ m.overrideKw = true) ∧
    (∀ base : ClassDecl, ofAppDecl.overridesCheck base = true →
      base.name = "ofBaseApp" ∧
      ∀ m ∈ ofAppDecl.methods, ∃ b ∈ base.methods,
        b.virtualKw = true ∧ b.name = m.name ∧ b.params = [] ∧ b.ret = "void") := by
  refine ⟨rfl, rfl, rfl, by decide, by decide, ?_⟩
  intro base hb
  simp only [ClassDecl.overridesCheck, ofAppDecl, List.all_cons, List.all_nil, Bool.and_true,
    Bool.not_true, Bool.false_or, Bool.and_eq_true, decide_eq_true_eq, List.any_eq_true,
    MethodDecl.overrides] at hb
  obtain ⟨hname, ⟨b1, hb1, hv1⟩, ⟨b2, hb2, hv2⟩⟩ := hb
  refine ⟨hname.symm, ?_⟩
  intro m hm
  simp only [ofAppDecl, List.mem_cons, List.mem_singleton, List.not_mem_nil, or_false] at hm
  rcases hm with h | h
  · subst h
    exact ⟨b1, hb1, hv1.1.1.1, hv1.1.1.2, hv1.1.2, hv1.2⟩
  · subst h
    exact ⟨b2, hb2, hv2.1.1.1, hv2.1.1.2, hv2.1.2, hv2.2⟩

/-- Witness of C1 at the base declaration `hostBaseDecl`: the override rule
accepts `ofApp` against it, and both methods override one of its virtual
member functions. -/
theorem ofApp_public_operations_witness :
    ofAppDecl.overridesCheck hostBaseDecl = true ∧
    (hostBaseDecl.name = "ofBaseApp" ∧
      ∀ m ∈ ofAppDecl.methods, ∃ b ∈ hostBaseDecl.methods,
        b.virtualKw = true ∧ b.name = m.name ∧ b.params = [] ∧ b.ret = "void") :=
  ⟨by decide, ofApp_public_operations.2.2.2.2.2 hostBaseDecl (by decide)⟩

/-- C2: the data members `ofApp` declares are exactly four, in this order: `cam`
of type `ofEasyCam`, `imageWithMesh` and `image` of type `ofTexture`, and
`generatedModel` of type `ofxAssimpModelLoader`; and an instance state is
exactly a choice of these four components: mapping a state to its camera, two
textures and model is a bijection. -/
theorem ofApp_state_components :
    ofAppDecl.fields.length = 4 ∧
    ofAppDecl.fields.map (fun d => (d.typeName, d.name)) =
      [("ofEasyCam", "cam"), ("ofTexture", "imageWithMesh"), ("ofTexture", "image"),
        ("ofxAssimpModelLoader", "generatedModel")] ∧
    Function.Bijective ofApp.components := by
  refine ⟨rfl, rfl, ?_, ?_⟩
  · intro a b hab
    cases a
    cases b
    simp only [ofApp.components, Prod.mk.injEq] at hab
    obtain ⟨h1, h2, h3, h4⟩ := hab
    subst h1 h2 h3 h4
    rfl
  · rintro ⟨c, t1, t2, m⟩
    exact ⟨⟨c, t1, t2, m⟩, rfl⟩

/-- C3: in every execution of the host started on any world, the first step
calls `setup` and every later step calls `draw`, so `setup` occurs exactly once
among the calls.  The first step really runs `setup` on the initial instance,
every later step really runs `draw` on the world the step before left, so the
world after `k + 1` steps is the world `setup` produced with `draw` run `k`
times on it.  A step that calls `draw` is never the first one, and the
instance it acts on is the one `setup` has run on. -/
theorem host_setup_once_then_draw (env : Assets) (w : World) (n : Nat) :
    Host.calls env (Host.start w) (n + 1) = Call.setup :: List.replicate n Call.draw ∧
    (Host.calls env (Host.start w) (n + 1)).count Call.setup = 1 ∧
    (∀ k, 0 < k → Host.callAt env (Host.start w) k = Call.draw) ∧
    (Host.after env (Host.start w) 0).world = w ∧
    (Host.after env (Host.start w) 1).world = ⟨w.app.setup env, w.framebuffer⟩ ∧
    (∀ k, (Host.after env (Host.start w) (k + 2)).world =
      (ofApp.draw (Host.after env (Host.start w) (k + 1)).world).2) ∧
    (∀ k, (Host.after env (Host.start w) (k + 1)).world =
      drawTimes k ⟨w.app.setup env, w.framebuffer⟩) ∧
    (∀ k, Host.callAt env (Host.start w) k = Call.draw →
      0 < k ∧ Host.callAt env (Host.start w) 0 = Call.setup ∧
      (Host.after env (Host.start w) k).started = true ∧
      (Host.after env (Host.start w) k).world.app = w.app.setup env ∧
      (Host.after env (Host.start w) k).world =
        drawTimes (k - 1) ⟨w.app.setup env, w.framebuffer⟩) := by
  refine ⟨calls_succ env w n, ?_, ?_, rfl, after_one_world env w,
    fun k => after_succ_succ_world env (Host.start w) k,
    fun k => after_succ_world env w k, ?_⟩
  · rw [calls_succ, List.count_cons_self, List.count_replicate]
    simp
  · intro k hk
    obtain ⟨j, rfl⟩ := Nat.exists_eq_succ_of_ne_zero (Nat.pos_iff_ne_zero.mp hk)
    exact callAt_succ env (Host.start w) j
  · intro k hk
    have hpos := callAt_draw_pos env w k hk
    obtain ⟨j, rfl⟩ := Nat.exists_eq_succ_of_ne_zero (Nat.pos_iff_ne_zero.mp hpos)
    exact ⟨hpos, callAt_zero env w, after_succ_started env (Host.start w) j,
      after_succ_app env w j, after_succ_world env w j⟩

/-- Witness of C3 on the freshly constructed instance with an empty
framebuffer: the step number 2 is a `draw`, it follows the `setup`, and it acts
on the instance `setup` produced. -/
theorem host_setup_once_then_draw_witness :
    Host.callAt ⟨1, some 2, some 3, some 4⟩ (Host.start ⟨ofApp.construct, []⟩) 2 = Call.draw ∧
    (0 < 2 ∧
      Host.callAt ⟨1, some 2, some 3, some 4⟩ (Host.start ⟨ofApp.construct, []⟩) 0
        = Call.setup ∧
      (Host.after ⟨1, some 2, some 3, some 4⟩ (Host.start ⟨ofApp.construct, []⟩) 2).started
        = true ∧
      (Host.after ⟨1, some 2, some 3, some 4⟩ (Host.start ⟨ofApp.construct, []⟩) 2).world.app
        = ofApp.construct.setup ⟨1, some 2, some 3, some 4⟩ ∧
      (Host.after ⟨1, some 2, some 3, some 4⟩ (Host.start ⟨ofApp.construct, []⟩) 2).world
        = drawTimes (2 - 1) ⟨ofApp.construct.setup ⟨1, some 2, some 3, some 4⟩, []⟩) :=
  ⟨by decide,
    (host_setup_once_then_draw ⟨1, some 2, some 3, some 4⟩ ⟨ofApp.construct, []⟩ 0).2.2.2.2.2.2.2
      2 (by decide)⟩

/-- C5: for every world, `draw` returns the unit value, leaves the instance
unchanged (its camera, both textures and its model), and changes the
framebuffer only by appending writes to it. -/
theorem draw_only_writes_framebuffer (w : World) :
    (ofApp.draw w).1 = () ∧
    (ofApp.draw w).2.app = w.app ∧
    (ofApp.draw w).2.app.cam = w.app.cam ∧
    (ofApp.draw w).2.app.imageWithMesh = w.app.imageWithMesh ∧
    (ofApp.draw w).2.app.image = w.app.image ∧
    (ofApp.draw w).2.app.generatedModel = w.app.generatedModel ∧
    (∃ cmds, (ofApp.draw w).2.framebuffer = w.framebuffer ++ cmds) :=
  ⟨rfl, rfl, rfl, rfl, rfl, rfl, ⟨_, rfl⟩⟩

/-- C6: none of the four data members of `ofApp` is static, a pointer or a
reference: each is declared as an object of its type, so the object it
denotes is a subobject of the instance itself; hence for two different
instances no member of one denotes the same object as a member of the
other. -/
theorem ofApp_members_not_shared :
    (∀ d ∈ ofAppDecl.fields, d.isStatic = false ∧ d.storage = Storage.value) ∧
    (∀ d ∈ ofAppDecl.fields, ∀ i, d.place i = Place.subobject i d.name) ∧
    (∀ i j, i ≠ j → ∀ d ∈ ofAppDecl.fields, ∀ e ∈ ofAppDecl.fields,
      d.place i ≠ e.place j) := by
  refine ⟨by decide, fun d hd i => place_of_field d hd i, ?_⟩
  intro i j hij d hd e he heq
  rw [place_of_field d hd i, place_of_field e he j] at heq
  injection heq with h1 _
  exact hij h1

/-- Witness of C6 at the instances number 0 and 1. -/
theorem ofApp_members_not_shared_witness :
    (0 : Nat) ≠ 1 ∧
    (∀ d ∈ ofAppDecl.fields, ∀ e ∈ ofAppDecl.fields, d.place 0 ≠ e.place 1) :=
  ⟨by decide, ofApp_members_not_shared.2.2 0 1 (by decide)⟩

end OfxEos
